import Mathlib

/-!
Shallow embedding of the live-chat relay service (FastAPI + SQLAlchemy source):
the WebSocket connection registry and sanitizer (`app/ws.py`), the token-bucket
rate limiter (`app/rate_limit.py`), the OTP/session manager (`app/auth.py`) and
the Telegram bridge threading logic (`app/telegram.py`), together with proofs of
the behavioural properties claimed for them.

Conventions of the embedding:
* Python `dict` values (insertion ordered) are association lists with unique
  keys; `dictGet`/`dictSet`/`dictPop` mirror `get`/`__setitem__`/`pop`.
* Wall-clock / monotonic instants are `Nat` seconds (database timestamps) or
  `Rat` (the monotonic float clock of the rate limiter).
* Fallible external actions (WebSocket `send`, the Telegram HTTP call) are
  parameterised by their outcome, so one Lean function covers every run of the
  corresponding Python code.
* Configuration values read from `app/config.py` are passed in a `Settings`
  record whose defaults are the defaults of `config.py`; settings are
  environment-configurable, so theorems quantify over them where the claim does.
-/

/-- Configuration fields of `app/config.py` used by the verified components,
with the source defaults. -/
structure Settings where
  MAX_MESSAGE_LEN : Nat
  MAX_WS_MESSAGE_SIZE : Nat
  WS_MAX_CLIENTS : Nat
  WS_MAX_ADMINS : Nat
  ADMIN_SESSION_TTL_HOURS : Nat
  SESSION_REFRESH_ENABLED : Bool
  ADMIN_IP_WHITELIST : List String
  deriving Repr, DecidableEq

/-- The default configuration of `app/config.py`. -/
def defaultSettings : Settings :=
  { MAX_MESSAGE_LEN := 2000
    MAX_WS_MESSAGE_SIZE := 64 * 1024
    WS_MAX_CLIENTS := 250
    WS_MAX_ADMINS := 5
    ADMIN_SESSION_TTL_HOURS := 24
    SESSION_REFRESH_ENABLED := true
    ADMIN_IP_WHITELIST := [] }

/-! ### Python dict as an association list -/

/-- `d.get(k)` on an insertion-ordered dict. -/
def dictGet {κ α : Type} [BEq κ] (m : List (κ × α)) (k : κ) : Option α :=
  (m.find? (fun kv => kv.1 == k)).map (·.2)

/-- `d[k] = v`: replace in place if the key exists, else append (dict
insertion order). -/
def dictSet {κ α : Type} [BEq κ] (m : List (κ × α)) (k : κ) (v : α) :
    List (κ × α) :=
  if m.any (fun kv => kv.1 == k) then
    m.map (fun kv => if kv.1 == k then (kv.1, v) else kv)
  else
    m ++ [(k, v)]

/-- `d.pop(k, None)`. -/
def dictPop {κ α : Type} [BEq κ] (m : List (κ × α)) (k : κ) : List (κ × α) :=
  m.filter (fun kv => !(kv.1 == k))

/-- Keys of a dict are pairwise distinct (the representation invariant of a
Python dict embedded as an association list). -/
def keysNodup {κ α : Type} (m : List (κ × α)) : Prop :=
  (m.map (·.1)).Nodup

/-! ### `sanitize` (`app/ws.py`, lines 14-23)

`html.escape(s, quote=True)` performs the five replacements `&→&amp;`,
`<→&lt;`, `>→&gt;`, `"→&quot;`, `'→&#x27;` in that order; since `&` is
replaced first and no later replacement text contains a character that a later
replacement targets, the sequential `str.replace` chain is extensionally the
per-character substitution below. -/

/-- Replacement text of one character under `html.escape(·, quote=True)`. -/
def escapeChar (c : Char) : List Char :=
  if c = '&' then "&amp;".data
  else if c = '<' then "&lt;".data
  else if c = '>' then "&gt;".data
  else if c = Char.ofNat 34 then "&quot;".data
  else if c = Char.ofNat 39 then "&#x27;".data
  else [c]

/-- `html.escape(s, quote=True)` character by character. -/
def escapeHtml : List Char → List Char
  | [] => []
  | c :: cs => escapeChar c ++ escapeHtml cs

/-- `sanitize(text)` from `app/ws.py`: HTML-escape, then slice to the first
`MAX_MESSAGE_LEN` code points (`[:settings.MAX_MESSAGE_LEN]`).  The Python
`text or ""` None-guard is outside the `str` domain modelled here. -/
def sanitize (cfg : Settings) (text : String) : String :=
  String.mk ((escapeHtml text.data).take cfg.MAX_MESSAGE_LEN)

/-- Characters rewritten by `html.escape(·, quote=True)`. -/
def isHtmlSpecial (c : Char) : Bool :=
  c == '&' || c == '<' || c == '>' || c == Char.ofNat 34 || c == Char.ofNat 39

/-! ### Token bucket (`app/rate_limit.py`)

`time.monotonic()` returns a float; token counts become floats after the first
refill.  All arithmetic performed (`+`, `*`, `min`, `- 1`) is exact on the
values the claims touch, and is modelled over `Rat`.  The `last_access`
datetime only feeds `cleanup_stale_buckets`, which no claim concerns, and is
omitted. -/

/-- State of `TokenBucket` (`app/rate_limit.py`, lines 7-24). -/
structure TokenBucket where
  rate : Rat
  capacity : Rat
  tokens : Rat
  updated : Rat
  deriving Repr, DecidableEq

/-- `TokenBucket.__init__(rate_per_sec, burst)` at monotonic instant `now`. -/
def TokenBucket.make (rate burst : Rat) (now : Rat) : TokenBucket :=
  { rate := rate, capacity := burst, tokens := burst, updated := now }

/-- `TokenBucket.allow()` at monotonic instant `now`: refill proportionally to
elapsed time, cap at capacity, then consume one token if at least one is
available. -/
def TokenBucket.allow (b : TokenBucket) (now : Rat) : Bool × TokenBucket :=
  let elapsed := now - b.updated
  let tokens := min b.capacity (b.tokens + elapsed * b.rate)
  if 1 ≤ tokens then
    (true, { b with tokens := tokens - 1, updated := now })
  else
    (false, { b with tokens := tokens, updated := now })

/-- State of `RateLimiter` (`app/rate_limit.py`, lines 26-47): two independent
bucket namespaces. -/
structure RateLimiter where
  ws_buckets : List (String × TokenBucket)
  api_buckets : List (String × TokenBucket)
  deriving Repr

/-- `RateLimiter.allow_ws(ident, rate, burst)` at instant `now`: lazily create
(or recreate on a rate/burst change) the bucket, then run `allow`; the bucket
object is stored mutated, modelled by writing the post-`allow` bucket back. -/
def RateLimiter.allow_ws (rl : RateLimiter) (ident : String) (rate burst : Rat)
    (now : Rat) : Bool × RateLimiter :=
  let b :=
    match dictGet rl.ws_buckets ident with
    | some b0 => if b0.rate != rate || b0.capacity != burst
                 then TokenBucket.make rate burst now else b0
    | none => TokenBucket.make rate burst now
  let r := b.allow now
  (r.1, { rl with ws_buckets := dictSet rl.ws_buckets ident r.2 })

/-- `RateLimiter.allow_api`, identical logic on the API namespace. -/
def RateLimiter.allow_api (rl : RateLimiter) (ident : String) (rate burst : Rat)
    (now : Rat) : Bool × RateLimiter :=
  let b :=
    match dictGet rl.api_buckets ident with
    | some b0 => if b0.rate != rate || b0.capacity != burst
                 then TokenBucket.make rate burst now else b0
    | none => TokenBucket.make rate burst now
  let r := b.allow now
  (r.1, { rl with api_buckets := dictSet rl.api_buckets ident r.2 })

/-! ### JSON events and `json.dumps`

The relay events that the claims concern (`message`, `conversation_deleted`,
`typing`, `joined`, `error`, ...) are flat JSON objects with scalar fields;
`JVal` models the scalar values and `JObj` the insertion-ordered object.
`dumpsObj` mirrors `json.dumps` with its defaults (`ensure_ascii=True`,
separators `", "` and `": "`). -/

/-- Scalar JSON values appearing in relay events. -/
inductive JVal where
  | str (s : String)
  | num (n : Int)
  | bool (b : Bool)
  | null
  deriving Repr, DecidableEq

/-- A flat JSON object: the Python dict passed to `send`/`send_json`. -/
abbrev JObj : Type := List (String × JVal)

/-- Lower-case hex digit. -/
def hexDigitChar (n : Nat) : Char :=
  if n < 10 then Char.ofNat (48 + n) else Char.ofNat (87 + n)

/-- Four-digit lower-case hex, as produced by `'\\u%04x'`. -/
def hex4 (n : Nat) : String :=
  String.mk [hexDigitChar (n / 4096 % 16), hexDigitChar (n / 256 % 16),
             hexDigitChar (n / 16 % 16), hexDigitChar (n % 16)]

/-- `\uXXXX` escape. -/
def escU (n : Nat) : String := "\\u" ++ hex4 n

/-- One character of `json.dumps`'s ASCII string encoder
(`py_encode_basestring_ascii`): short escapes for the common controls, `\uXXXX`
for other controls and everything outside `0x20..0x7e` (surrogate pairs above
`0xffff`). -/
def escapeJsonChar (c : Char) : String :=
  let n := c.toNat
  if n = 34 then "\\\""
  else if n = 92 then "\\\\"
  else if n = 10 then "\\n"
  else if n = 13 then "\\r"
  else if n = 9 then "\\t"
  else if n = 8 then "\\b"
  else if n = 12 then "\\f"
  else if n < 32 then escU n
  else if n < 127 then String.mk [c]
  else if n < 65536 then escU n
  else escU (55296 + (n - 65536) / 1024) ++ escU (56320 + (n - 65536) % 1024)

/-- `json.dumps` of a string. -/
def dumpsStr (s : String) : String :=
  "\"" ++ String.join (s.data.map escapeJsonChar) ++ "\""

/-- `json.dumps` of a scalar value. -/
def JVal.dumps : JVal → String
  | .str s => dumpsStr s
  | .num n => toString n
  | .bool b => if b then "true" else "false"
  | .null => "null"

/-- `json.dumps` of a flat object, default separators. -/
def dumpsObj (o : JObj) : String :=
  "\x7b" ++
    String.intercalate ", " (o.map (fun kv => dumpsStr kv.1 ++ ": " ++ kv.2.dumps)) ++
  "\x7d"

/-- Byte length of one character under `str.encode('utf-8')`. -/
def utf8CharLen (c : Char) : Nat :=
  if c.toNat < 128 then 1
  else if c.toNat < 2048 then 2
  else if c.toNat < 65536 then 3
  else 4

/-- `len(s.encode('utf-8'))`. -/
def utf8Len (s : String) : Nat :=
  s.data.foldl (fun acc c => acc + utf8CharLen c) 0

/-- Python `s[:i]` for an `int` index `i` (negative indices count from the
end, clamped at zero). -/
def pySlice (s : String) (i : Int) : String :=
  if 0 ≤ i then String.mk (s.data.take i.toNat)
  else String.mk (s.data.take (s.data.length - i.natAbs))

/-! ### The connection registry `WSManager` (`app/ws.py`, lines 38-123) -/

/-- An abstract live WebSocket channel (identity only). -/
structure Chan where
  cid : Nat
  deriving Repr, DecidableEq

/-- Observable actions of the registry, in program order. -/
inductive Eff where
  | close (c : Chan) (code : Nat) (reason : String)
  | bind (conv : Nat) (c : Chan)
  | sendVisitor (c : Chan) (ev : JObj)
  | sendAdmin (c : Chan) (ev : JObj)
  | unbind (conv : Nat)
  | dbDelete (conv : Nat)
  deriving Repr, DecidableEq

/-- State of `WSManager`: the visitor dict `clients`
(conversation id → channel), the operator set `admins` (a Python `set`,
modelled as a duplicate-free list), and the configured capacities. -/
structure WSManager where
  clients : List (Nat × Chan)
  admins : List Chan
  max_clients : Nat
  max_admins : Nat
  deriving Repr

/-- `WSManager.register_client(conv_id, ws)`: reject with close code 1008 when
at capacity; otherwise close any previously bound channel with code 1000
(exceptions from that close are swallowed), then install the new binding.
Returns the state, the emitted actions in order, and the Python return
value. -/
def WSManager.register_client (m : WSManager) (conv : Nat) (ws : Chan) :
    WSManager × List Eff × Bool :=
  if m.max_clients ≤ m.clients.length then
    (m, [.close ws 1008 "Server at capacity"], false)
  else
    let closes :=
      match dictGet m.clients conv with
      | some old => [Eff.close old 1000 "New connection"]
      | none => []
    ({ m with clients := dictSet m.clients conv ws },
     closes ++ [.bind conv ws], true)

/-- `WSManager.unregister_client(conv_id)`: `self.clients.pop(conv_id, None)`. -/
def WSManager.unregister_client (m : WSManager) (conv : Nat) : WSManager :=
  { m with clients := dictPop m.clients conv }

/-- `WSManager.register_admin(ws)`. -/
def WSManager.register_admin (m : WSManager) (ws : Chan) :
    WSManager × List Eff × Bool :=
  if m.max_admins ≤ m.admins.length then
    (m, [.close ws 1008 "Server at capacity"], false)
  else
    ({ m with admins := if m.admins.contains ws then m.admins else m.admins ++ [ws] },
     [], true)

/-- `WSManager.unregister_admin(ws)`: `self.admins.discard(ws)`. -/
def WSManager.unregister_admin (m : WSManager) (ws : Chan) : WSManager :=
  { m with admins := m.admins.filter (fun a => !(a == ws)) }

/-- Possible failure of the payload-shaping part of `WSManager.send`:
`data["content"].encode` raises when the field is present but not a string. -/
inductive SendErr where
  | typeError
  deriving Repr, DecidableEq

/-- The payload transformation of `WSManager.send` (`app/ws.py`, lines 76-94):
if the serialized event exceeds `MAX_WS_MESSAGE_SIZE` bytes and the event is a
`"message"` carrying a `content` field whose UTF-8 length exceeds
`MAX_WS_MESSAGE_SIZE - 200`, the content is sliced to
`(MAX_WS_MESSAGE_SIZE - 200) // 4` characters and `"... (truncated)"` is
appended; the (possibly modified) object is then passed to `ws.send_json`.
Transport failures of `send_json` itself are re-raised by the source and are
modelled at the call sites (`broadcast_admin`). -/
def wsSend (cfg : Settings) (data : JObj) : Except SendErr JObj :=
  let msgLen := utf8Len (dumpsObj data)
  if cfg.MAX_WS_MESSAGE_SIZE < msgLen then
    if dictGet data "type" == some (JVal.str "message")
        && (dictGet data "content").isSome then
      match dictGet data "content" with
      | some (JVal.str content) =>
        let maxContentSize : Int := (cfg.MAX_WS_MESSAGE_SIZE : Int) - 200
        if maxContentSize < (utf8Len content : Int) then
          let truncated := pySlice content (Int.fdiv maxContentSize 4)
          .ok (dictSet data "content" (JVal.str (truncated ++ "... (truncated)")))
        else
          .ok data
      | _ => .error .typeError
    else
      .ok data
  else
    .ok data

/-- `WSManager.broadcast_admin(data)`: dispatch to every operator channel
(`asyncio.gather` with `return_exceptions=True`, so one failure never blocks
the other sends), then discard every channel whose send raised.  `fails`
records which channels' sends raise during this broadcast. -/
def WSManager.broadcast_admin (m : WSManager) (ev : JObj)
    (fails : Chan → Bool) : WSManager × List Eff :=
  ({ m with admins := m.admins.filter (fun a => !(fails a)) },
   m.admins.map (fun a => Eff.sendAdmin a ev))

/-- `WSManager.broadcast_to_conversation(conv_id, data)`: best-effort send to
the bound visitor channel (a disconnect-class failure, `visitorDrops`, pops the
binding; other failures are only logged), then `broadcast_admin`. -/
def WSManager.broadcast_to_conversation (m : WSManager) (conv : Nat) (ev : JObj)
    (visitorDrops : Bool) (adminFails : Chan → Bool) : WSManager × List Eff :=
  match dictGet m.clients conv with
  | some ws =>
    let m1 := if visitorDrops then { m with clients := dictPop m.clients conv } else m
    let r := m1.broadcast_admin ev adminFails
    (r.1, Eff.sendVisitor ws ev :: r.2)
  | none =>
    let r := m.broadcast_admin ev adminFails
    (r.1, r.2)

/-! ### The operator `delete_conversation` action (`app/ws.py`, lines 431-450) -/

/-- The `conversation_deleted` event built in `handle_admin`. -/
def deletedEvent (conv : Nat) : JObj :=
  [("type", JVal.str "conversation_deleted"),
   ("conversation_id", JVal.str (toString conv))]

/-- Conversation rows as far as the delete branch needs them: the set of
existing conversation ids. -/
structure ChatDB where
  convs : List Nat
  deriving Repr, DecidableEq

/-- The `delete_conversation` branch of `handle_admin`: verify the conversation
exists (else skip), hard-delete it, broadcast `conversation_deleted` to the
conversation (visitor first, then operators), and only then
`unregister_client`.  The emitted `Eff` trace records the order of the
operations. -/
def handle_admin_delete (m : WSManager) (db : ChatDB) (conv : Nat)
    (visitorDrops : Bool) (adminFails : Chan → Bool) :
    WSManager × ChatDB × List Eff :=
  if db.convs.contains conv then
    let db1 : ChatDB := { convs := db.convs.filter (fun c => !(c == conv)) }
    let r := m.broadcast_to_conversation conv (deletedEvent conv) visitorDrops adminFails
    let m2 := r.1.unregister_client conv
    (m2, db1, Eff.dbDelete conv :: r.2 ++ [Eff.unbind conv])
  else
    (m, db, [])

/-! ### OTP and session management (`app/auth.py`) -/

/-- A row of `admin_otps` (`app/models.py`): the primary key is abstracted to a
`Nat`. -/
structure AdminOTP where
  id : Nat
  code_hash : String
  expires_at : Nat
  used : Bool
  deriving Repr, DecidableEq

/-- A row of `admin_sessions` (`app/models.py`); `token` carries a UNIQUE
constraint in the schema. -/
structure AdminSession where
  id : Nat
  token : String
  expires_at : Nat
  active : Bool
  client_ip : Option String
  user_agent : Option String
  deriving Repr, DecidableEq

/-- The tables touched by `app/auth.py`. -/
structure AuthDB where
  otps : List AdminOTP
  sessions : List AdminSession
  deriving Repr, DecidableEq

/-- SQLAlchemy `Result.scalar_one_or_none()`: `none` on zero rows, the row on
exactly one, and a raised `MultipleResultsFound` otherwise. -/
def scalarOneOrNone {α : Type} : List α → Except Unit (Option α)
  | [] => .ok none
  | [x] => .ok (some x)
  | _ :: _ :: _ => .error ()

/-- The HTTP-level failures of the auth endpoints. -/
inductive AuthErr where
  | rateLimited
  | invalidCode
  | multipleResults
  | unauthorized
  | accessDenied
  deriving Repr, DecidableEq

/-- Python falsiness of an optional string column (`None` or `""`). -/
def optFalsy : Option String → Bool
  | none => true
  | some s => s == ""

/-- `verify_otp_and_issue_session` (`app/auth.py`, lines 22-48).  `hash` is the
deterministic salted SHA-256 `_hash_code`; `rateOk` is the outcome of the
`allow_api` gate for the caller's IP (the limiter state lives in
`RateLimiter`); `freshToken`/`freshSessionId` are the generated
`secrets.token_urlsafe(32)` and database-assigned session id.  On success it
returns the updated database, the token, and the session expiry. -/
def verify_otp_and_issue_session (hash : String → String) (db : AuthDB)
    (code : String) (now : Nat) (rateOk : Bool) (freshToken : String)
    (freshSessionId : Nat) (ttlHours : Nat) (clientIp : String)
    (userAgent : Option String) : Except AuthErr (AuthDB × String × Nat) :=
  if !rateOk then
    .error .rateLimited
  else
    let code_hash := hash code
    let rows := db.otps.filter
      (fun o => o.code_hash == code_hash && !o.used && decide (now < o.expires_at))
    match scalarOneOrNone rows with
    | .error _ => .error .multipleResults
    | .ok none => .error .invalidCode
    | .ok (some otp) =>
      let expires_at := now + ttlHours * 3600
      let otps1 := db.otps.map
        (fun o => if o.id == otp.id then { o with used := true } else o)
      let ses : AdminSession :=
        { id := freshSessionId, token := freshToken, expires_at := expires_at,
          active := true, client_ip := some clientIp, user_agent := userAgent }
      .ok ({ otps := otps1, sessions := db.sessions ++ [ses] },
           freshToken, expires_at)

/-- Python `str.startswith(prefix)`, evaluated over the code-point
sequence. -/
def strStartsWith (s pre : String) : Bool :=
  pre.data.isPrefixOf s.data

/-- The dict returned by `get_current_admin`. -/
structure AdminInfo where
  token : String
  session_id : Nat
  rotated : Bool
  deriving Repr, DecidableEq

/-- `UPDATE admin_sessions SET ... WHERE id = sid`. -/
def updateSessions (rows : List AdminSession) (sid : Nat)
    (f : AdminSession → AdminSession) : List AdminSession :=
  rows.map (fun s => if s.id == sid then f s else s)

/-- `get_current_admin` (`app/auth.py`, lines 50-113).  `authorization` is the
raw header; `currentIp` is the requester address derived from
`X-Forwarded-For`/`request.client`; `currentUa` is `headers.get("user-agent",
"")`; `freshToken` is the rotation token generated when
`SESSION_REFRESH_ENABLED`.  IP/user-agent mismatches are logged, never
enforced; missing ones are back-filled; then, with refresh enabled, the token
is replaced and the expiry extended in one UPDATE. -/
def get_current_admin (cfg : Settings) (db : AuthDB)
    (authorization : Option String) (now : Nat) (currentIp : Option String)
    (currentUa : String) (freshToken : String) :
    Except AuthErr (AuthDB × AdminInfo) :=
  match authorization with
  | none => .error .unauthorized
  | some auth =>
    if !(strStartsWith auth "Bearer ") then
      .error .unauthorized
    else
      let token := auth.drop 7
      if cfg.ADMIN_IP_WHITELIST ≠ [] &&
          (match currentIp with
           | some ip => !(cfg.ADMIN_IP_WHITELIST.contains ip)
           | none => false) then
        .error .accessDenied
      else
        let rows := db.sessions.filter
          (fun s => s.token == token && s.active && decide (now < s.expires_at))
        match scalarOneOrNone rows with
        | .error _ => .error .multipleResults
        | .ok none => .error .unauthorized
        | .ok (some ses) =>
          let rows1 :=
            if optFalsy ses.client_ip && currentIp.isSome then
              updateSessions db.sessions ses.id
                (fun s => { s with client_ip := currentIp })
            else db.sessions
          let rows2 :=
            if optFalsy ses.user_agent && currentUa != "" then
              updateSessions rows1 ses.id
                (fun s => { s with user_agent := some currentUa })
            else rows1
          if cfg.SESSION_REFRESH_ENABLED then
            let newExpires := now + cfg.ADMIN_SESSION_TTL_HOURS * 3600
            let rows3 := updateSessions rows2 ses.id
              (fun s => { s with token := freshToken, expires_at := newExpires })
            .ok ({ db with sessions := rows3 },
                 { token := freshToken, session_id := ses.id, rotated := true })
          else
            .ok ({ db with sessions := rows2 },
                 { token := token, session_id := ses.id, rotated := false })

/-! ### Telegram bridge threading (`app/telegram.py`) -/

/-- A row of `telegram_links` (`app/models.py`). -/
structure TelegramLink where
  conversation_id : Nat
  tg_chat_id : Int
  tg_message_id : Int
  created_at : Nat
  deriving Repr, DecidableEq

/-- The `sendMessage` payload assembled by `tg_send` (`app/telegram.py`, lines
24-45): `reply_to_message_id` is attached only when the argument is truthy
(non-`None` and non-zero). -/
structure TgRequest where
  chat_id : Int
  text : String
  reply_to_message_id : Option Int
  deriving Repr, DecidableEq

/-- Payload construction inside `tg_send`. -/
def tg_payload (chatId : Int) (text : String) (replyTo : Option Int) :
    TgRequest :=
  match replyTo with
  | some r =>
    if r != 0 then
      { chat_id := chatId, text := text, reply_to_message_id := some r }
    else
      { chat_id := chatId, text := text, reply_to_message_id := none }
  | none => { chat_id := chatId, text := text, reply_to_message_id := none }

/-- The query of `notify_visitor_message`:
`select(TelegramLink).where(conversation_id == conv).order_by(created_at.desc())`
followed by `.scalars().first()` — the stored link of the conversation with
the greatest `created_at` (first wins on a timestamp tie, which the theorems
rule out by assuming a strictly increasing clock). -/
def laterLink (acc : Option TelegramLink) (l : TelegramLink) :
    Option TelegramLink :=
  match acc with
  | none => some l
  | some best => if best.created_at < l.created_at then some l else some best

/-- The link of the conversation with the greatest `created_at`, i.e. the
result of the `order_by(created_at.desc())` / `.first()` query above. -/
def latestLink (links : List TelegramLink) (conv : Nat) : Option TelegramLink :=
  (links.filter (fun l => l.conversation_id == conv)).foldl laterLink none

/-- `notify_visitor_message(conv_id, visitor_name, content)` (`app/telegram.py`,
lines 58-78).  `text` is the rendered i18n template; `sendResult` is the
outcome of `tg_send` (`some` message id, or `none` when every retry failed and
the exception was caught and logged); `now` timestamps the inserted link row.
Returns the link table after the call and the payload handed to the Telegram
API. -/
def notify_visitor_message (links : List TelegramLink) (conv : Nat)
    (chatId : Int) (text : String) (sendResult : Option Int) (now : Nat) :
    List TelegramLink × TgRequest :=
  let text1 := if 4096 < text.length then String.mk (text.data.take 4090) ++ "..." else text
  let replyTo := (latestLink links conv).map (·.tg_message_id)
  let req := tg_payload chatId text1 replyTo
  match sendResult with
  | some msgId =>
    (links ++ [{ conversation_id := conv, tg_chat_id := chatId,
                 tg_message_id := msgId, created_at := now }], req)
  | none => (links, req)

/-! ## Lemmas and claim theorems -/

section DictLemmas

variable {κ α : Type} [BEq κ] [LawfulBEq κ]

theorem dictGet_dictSet_self (m : List (κ × α)) (k : κ) (v : α) :
    dictGet (dictSet m k v) k = some v := by
  unfold dictSet
  by_cases h : m.any (fun kv => kv.1 == k)
  · simp only [if_pos h]
    induction m with
    | nil => simp at h
    | cons kv t ih =>
      by_cases hk : (kv.1 == k) = true
      · simp [dictGet, List.find?, hk]
      · simp only [List.any_cons, hk, Bool.false_or] at h
        simpa [dictGet, List.find?, hk] using ih h
  · simp only [if_neg h]
    have hnone : m.find? (fun kv => kv.1 == k) = none := by
      rw [List.find?_eq_none]
      intro x hx
      simp only [List.any_eq_true, not_exists, not_and] at h
      exact fun hxk => (h x hx) hxk
    simp [dictGet, List.find?_append, hnone, List.find?]

theorem dictGet_dictPop_self (m : List (κ × α)) (k : κ) :
    dictGet (dictPop m k) k = none := by
  unfold dictGet dictPop
  have hnone :
      (m.filter (fun kv => !(kv.1 == k))).find? (fun kv => kv.1 == k) = none := by
    rw [List.find?_eq_none]
    intro x hx
    have := List.of_mem_filter hx
    simp only [Bool.not_eq_true'] at this
    simp [this]
  rw [hnone]
  rfl

theorem keysNodup_dictSet (m : List (κ × α)) (k : κ) (v : α)
    (h : keysNodup m) : keysNodup (dictSet m k v) := by
  unfold dictSet
  by_cases hm : m.any (fun kv => kv.1 == k)
  · simp only [if_pos hm]
    unfold keysNodup at h ⊢
    have : (m.map (fun kv => if kv.1 == k then (kv.1, v) else kv)).map (·.1)
        = m.map (·.1) := by
      rw [List.map_map]
      apply List.map_congr_left
      intro kv _
      by_cases hk : (kv.1 == k) = true <;> simp [hk]
    rw [this]
    exact h
  · simp only [if_neg hm]
    unfold keysNodup at h ⊢
    rw [List.map_append]
    simp only [List.map_cons, List.map_nil]
    rw [List.nodup_append]
    refine ⟨h, List.nodup_singleton _, ?_⟩
    intro a ha
    simp only [List.mem_singleton]
    intro hak
    subst hak
    simp only [List.mem_map] at ha
    obtain ⟨kv, hkv, hfst⟩ := ha
    simp only [List.any_eq_true, not_exists, not_and] at hm
    exact (hm kv hkv) (by simp [hfst])

theorem keysNodup_dictPop (m : List (κ × α)) (k : κ)
    (h : keysNodup m) : keysNodup (dictPop m k) := by
  unfold keysNodup at h ⊢
  exact List.Nodup.sublist (List.Sublist.map _ (List.filter_sublist m)) h

end DictLemmas

/-! ### C2 — sanitize: length cap holds, idempotence does not -/

theorem escapeHtml_of_no_special (l : List Char)
    (h : ∀ c ∈ l, isHtmlSpecial c = false) : escapeHtml l = l := by
  induction l with
  | nil => rfl
  | cons c cs ih =>
    have hc := h c (List.mem_cons_self c cs)
    have hcs := ih (fun d hd => h d (List.mem_cons_of_mem c hd))
    unfold isHtmlSpecial at hc
    simp only [Bool.or_eq_false_iff, beq_eq_false_iff_ne, ne_eq] at hc
    obtain ⟨⟨⟨⟨h1, h2⟩, h3⟩, h4⟩, h5⟩ := hc
    unfold escapeHtml escapeChar
    simp [h1, h2, h3, h4, h5, hcs]

/-- C2 (counterexample): `sanitize` is not idempotent — on the one-character
input `"&"` the first pass yields `"&amp;"` and the second pass escapes the
ampersand of the entity again, yielding `"&amp;amp;"`. -/
theorem sanitize_not_idempotent :
    sanitize defaultSettings (sanitize defaultSettings "&")
      ≠ sanitize defaultSettings "&" := by
  decide

/-- C2 (amended): the length of `sanitize raw` never exceeds the configured
`MAX_MESSAGE_LEN`, and `sanitize` is idempotent on inputs containing none of
the HTML-escaped characters `&`, `<`, `>`, `"`, `'` (double application
re-escapes the ampersands that escaping introduces, so idempotence cannot hold
in general). -/
theorem sanitize_cap_and_conditional_idempotence :
    (∀ (cfg : Settings) (raw : String),
        (sanitize cfg raw).length ≤ cfg.MAX_MESSAGE_LEN)
    ∧ (∀ (cfg : Settings) (raw : String),
        (∀ c ∈ raw.data, isHtmlSpecial c = false) →
        sanitize cfg (sanitize cfg raw) = sanitize cfg raw) := by
  constructor
  · intro cfg raw
    show (String.mk ((escapeHtml raw.data).take cfg.MAX_MESSAGE_LEN)).length
        ≤ cfg.MAX_MESSAGE_LEN
    simp only [String.length_mk, List.length_take]
    exact min_le_left _ _
  · intro cfg raw h
    unfold sanitize
    have h1 : escapeHtml raw.data = raw.data := escapeHtml_of_no_special _ h
    rw [h1]
    have h2 : escapeHtml (raw.data.take cfg.MAX_MESSAGE_LEN)
        = raw.data.take cfg.MAX_MESSAGE_LEN :=
      escapeHtml_of_no_special _
        (fun c hc => h c (List.take_subset _ _ hc))
    simp [h2, List.take_take]

/-- C2 (witness): the amended idempotence holds on the special-character-free
input `"hello"`. -/
theorem sanitize_conditional_idempotence_witness :
    (∀ c ∈ ("hello" : String).data, isHtmlSpecial c = false)
    ∧ sanitize defaultSettings (sanitize defaultSettings "hello")
        = sanitize defaultSettings "hello" :=
  ⟨by decide,
   sanitize_cap_and_conditional_idempotence.2 defaultSettings "hello" (by decide)⟩

/-! ### C8 — token bucket: rate 1, burst 2, three back-to-back allows -/

/-- C8: a fresh bucket with rate 1 token/s and burst 2, probed three times with
zero elapsed time, answers exactly `true, true, false`; the refill performed by
`allow` never lifts the stored token count above the bucket capacity; and the
same `[true, true, false]` sequence holds through `RateLimiter.allow_ws` for an
identity without a bucket yet. -/
theorem token_bucket_burst_two_sequence :
    (∀ t : Rat,
      ((TokenBucket.make 1 2 t).allow t).1 = true
      ∧ ((((TokenBucket.make 1 2 t).allow t).2).allow t).1 = true
      ∧ (((((TokenBucket.make 1 2 t).allow t).2).allow t).2.allow t).1 = false)
    ∧ (∀ (b : TokenBucket) (now : Rat), ((b.allow now).2).tokens ≤ b.capacity)
    ∧ (∀ (rl : RateLimiter) (ident : String) (t : Rat),
        dictGet rl.ws_buckets ident = none →
        (rl.allow_ws ident 1 2 t).1 = true
        ∧ (((rl.allow_ws ident 1 2 t).2).allow_ws ident 1 2 t).1 = true
        ∧ (((((rl.allow_ws ident 1 2 t).2).allow_ws ident 1 2 t).2).allow_ws
             ident 1 2 t).1 = false) := by
  have hseq : ∀ t : Rat,
      ((TokenBucket.make 1 2 t).allow t).1 = true
      ∧ ((TokenBucket.make 1 2 t).allow t).2
          = { rate := 1, capacity := 2, tokens := 1, updated := t } := by
    intro t
    unfold TokenBucket.make TokenBucket.allow
    norm_num
  have hseq2 : ∀ t : Rat,
      (({ rate := 1, capacity := 2, tokens := 1, updated := t } :
          TokenBucket).allow t).1 = true
      ∧ (({ rate := 1, capacity := 2, tokens := 1, updated := t } :
          TokenBucket).allow t).2
          = { rate := 1, capacity := 2, tokens := 0, updated := t } := by
    intro t
    unfold TokenBucket.allow
    norm_num
  have hseq3 : ∀ t : Rat,
      (({ rate := 1, capacity := 2, tokens := 0, updated := t } :
          TokenBucket).allow t).1 = false := by
    intro t
    unfold TokenBucket.allow
    norm_num
  refine ⟨?_, ?_, ?_⟩
  · intro t
    refine ⟨(hseq t).1, ?_, ?_⟩
    · rw [(hseq t).2]
      exact (hseq2 t).1
    · rw [(hseq t).2, (hseq2 t).2]
      exact hseq3 t
  · intro b now
    unfold TokenBucket.allow
    by_cases h : (1 : Rat) ≤ min b.capacity (b.tokens + (now - b.updated) * b.rate)
    · simp only [if_pos h]
      have := min_le_left b.capacity (b.tokens + (now - b.updated) * b.rate)
      linarith
    · simp only [if_neg h]
      exact min_le_left _ _
  · intro rl ident t hfresh
    obtain ⟨h1a, h1b⟩ := hseq t
    obtain ⟨h2a, h2b⟩ := hseq2 t
    have h3 := hseq3 t
    refine ⟨?_, ?_, ?_⟩ <;>
      simp [RateLimiter.allow_ws, hfresh, h1a, h1b, h2a, h2b, h3,
            dictGet_dictSet_self]

/-- C8 (witness): the bucket and limiter sequences evaluated at instant 0 on an
empty limiter. -/
theorem token_bucket_burst_two_sequence_witness :
    dictGet (RateLimiter.mk [] []).ws_buckets "client:1" = none
    ∧ (((RateLimiter.mk [] []).allow_ws "client:1" 1 2 0).1 = true
      ∧ ((((RateLimiter.mk [] []).allow_ws "client:1" 1 2 0).2).allow_ws
           "client:1" 1 2 0).1 = true
      ∧ (((((RateLimiter.mk [] []).allow_ws "client:1" 1 2 0).2).allow_ws
            "client:1" 1 2 0).2.allow_ws "client:1" 1 2 0).1 = false) :=
  ⟨rfl, token_bucket_burst_two_sequence.2.2 (RateLimiter.mk [] []) "client:1" 0 rfl⟩

/-! ### C1 / C10 — register_client: single binding, rebind order, capacity -/

/-- C1: the visitor registry binds at most one channel per conversation id
(registering and unregistering preserve key uniqueness of the `clients` dict),
and when `register_client` is called for a conversation that already has a
bound channel while capacity permits, the old channel is closed with the
normal-closure code 1000 strictly before the new channel is installed: the
emitted action trace is exactly `[close old 1000, bind conv ws]` and afterwards
the binding is the new channel. -/
theorem register_client_single_binding_and_rebind
    (m : WSManager) (conv : Nat) (ws old : Chan)
    (hcap : m.clients.length < m.max_clients)
    (hold : dictGet m.clients conv = some old) :
    (∀ (m1 : WSManager) (conv1 : Nat) (ws1 : Chan), keysNodup m1.clients →
        keysNodup ((m1.register_client conv1 ws1).1).clients
        ∧ keysNodup ((m1.unregister_client conv1).clients))
    ∧ m.register_client conv ws =
        ({ m with clients := dictSet m.clients conv ws },
         [Eff.close old 1000 "New connection", Eff.bind conv ws], true)
    ∧ dictGet ((m.register_client conv ws).1).clients conv = some ws := by
  have heq : m.register_client conv ws =
      ({ m with clients := dictSet m.clients conv ws },
       [Eff.close old 1000 "New connection", Eff.bind conv ws], true) := by
    unfold WSManager.register_client
    rw [if_neg (by omega), hold]
    rfl
  refine ⟨?_, heq, ?_⟩
  · intro m1 conv1 ws1 hnd
    constructor
    · unfold WSManager.register_client
      by_cases hc : m1.max_clients ≤ m1.clients.length
      · simpa [hc] using hnd
      · cases hget : dictGet m1.clients conv1 <;>
          simp [hc, hget, keysNodup_dictSet, hnd]
    · exact keysNodup_dictPop _ _ hnd
  · rw [heq]
    exact dictGet_dictSet_self m.clients conv ws

/-- C1 (witness): a registry holding one binding for conversation 1 rebinds it,
closing the old channel with code 1000 first. -/
theorem register_client_single_binding_and_rebind_witness :
    (WSManager.mk [(1, Chan.mk 10)] [] 250 5).clients.length
        < (WSManager.mk [(1, Chan.mk 10)] [] 250 5).max_clients
    ∧ dictGet (WSManager.mk [(1, Chan.mk 10)] [] 250 5).clients 1
        = some (Chan.mk 10)
    ∧ (WSManager.mk [(1, Chan.mk 10)] [] 250 5).register_client 1 (Chan.mk 11) =
        ({ (WSManager.mk [(1, Chan.mk 10)] [] 250 5) with
            clients := dictSet (WSManager.mk [(1, Chan.mk 10)] [] 250 5).clients
              1 (Chan.mk 11) },
         [Eff.close (Chan.mk 10) 1000 "New connection", Eff.bind 1 (Chan.mk 11)],
         true) :=
  ⟨by decide, by decide,
   (register_client_single_binding_and_rebind
      (WSManager.mk [(1, Chan.mk 10)] [] 250 5) 1 (Chan.mk 11) (Chan.mk 10)
      (by decide) (by decide)).2.1⟩

/-- C10: when the `clients` map is at the configured capacity,
`register_client` rejects the new channel — close code 1008 ("Server at
capacity") and return value `False` — even when the requested conversation id
already has a bound channel, which then stays bound to the old channel: the
capacity check precedes the rebinding check. -/
theorem register_client_capacity_precedes_rebind
    (m : WSManager) (conv : Nat) (ws old : Chan)
    (hcap : m.max_clients ≤ m.clients.length)
    (hold : dictGet m.clients conv = some old) :
    m.register_client conv ws = (m, [Eff.close ws 1008 "Server at capacity"], false)
    ∧ dictGet ((m.register_client conv ws).1).clients conv = some old := by
  have heq : m.register_client conv ws
      = (m, [Eff.close ws 1008 "Server at capacity"], false) := by
    unfold WSManager.register_client
    rw [if_pos hcap]
  exact ⟨heq, by rw [heq]; exact hold⟩

/-- C10 (witness): a registry configured for a single client, already holding
a binding for conversation 1, rejects a reconnect for conversation 1. -/
theorem register_client_capacity_precedes_rebind_witness :
    (WSManager.mk [(1, Chan.mk 10)] [] 1 5).max_clients
        ≤ (WSManager.mk [(1, Chan.mk 10)] [] 1 5).clients.length
    ∧ dictGet (WSManager.mk [(1, Chan.mk 10)] [] 1 5).clients 1
        = some (Chan.mk 10)
    ∧ (WSManager.mk [(1, Chan.mk 10)] [] 1 5).register_client 1 (Chan.mk 11)
        = (WSManager.mk [(1, Chan.mk 10)] [] 1 5,
           [Eff.close (Chan.mk 11) 1008 "Server at capacity"], false) :=
  ⟨by decide, by decide,
   (register_client_capacity_precedes_rebind
      (WSManager.mk [(1, Chan.mk 10)] [] 1 5) 1 (Chan.mk 11) (Chan.mk 10)
      (by decide) (by decide)).1⟩

/-! ### C6 — broadcast_admin: eviction of failed channels -/

/-- C6: during an operator broadcast every registered operator channel is
dispatched to (a failing channel does not block or suppress the sends to the
others), a channel whose send raises is removed from the operator set, and a
subsequent broadcast never attempts to send to the removed channel (whatever
event it carries and whichever channels fail then). -/
theorem broadcast_admin_evicts_failed_channel
    (m : WSManager) (ev ev2 : JObj) (fails fails2 : Chan → Bool) (a : Chan)
    (ha : a ∈ m.admins) :
    (∀ b ∈ m.admins, Eff.sendAdmin b ev ∈ (m.broadcast_admin ev fails).2)
    ∧ (fails a = true →
        a ∉ ((m.broadcast_admin ev fails).1).admins
        ∧ ∀ ev3, Eff.sendAdmin a ev3 ∉
            (((m.broadcast_admin ev fails).1).broadcast_admin ev2 fails2).2) := by
  refine ⟨?_, ?_⟩
  · intro b hb
    unfold WSManager.broadcast_admin
    exact List.mem_map.mpr ⟨b, hb, rfl⟩
  · intro hfa
    constructor
    · unfold WSManager.broadcast_admin
      intro hmem
      simp only [List.mem_filter, Bool.not_eq_true'] at hmem
      simp [hfa] at hmem
    · intro ev3 hmem
      unfold WSManager.broadcast_admin at hmem
      simp only [List.mem_map, List.mem_filter] at hmem
      obtain ⟨b, ⟨_, hbf⟩, hbe⟩ := hmem
      have hba : b = a := by
        injection hbe
      rw [hba, hfa] at hbf
      simp at hbf

/-- C6 (witness): with operators 1 and 2 registered and channel 1 failing,
channel 2 is still dispatched to and channel 1 is evicted and never retried. -/
theorem broadcast_admin_evicts_failed_channel_witness :
    Chan.mk 1 ∈ (WSManager.mk [] [Chan.mk 1, Chan.mk 2] 250 5).admins
    ∧ ((∀ b ∈ (WSManager.mk [] [Chan.mk 1, Chan.mk 2] 250 5).admins,
          Eff.sendAdmin b [] ∈
            ((WSManager.mk [] [Chan.mk 1, Chan.mk 2] 250 5).broadcast_admin []
              (fun c => c == Chan.mk 1)).2)
      ∧ ((fun c => c == Chan.mk 1) (Chan.mk 1) = true →
          Chan.mk 1 ∉ (((WSManager.mk [] [Chan.mk 1, Chan.mk 2] 250 5).broadcast_admin
              [] (fun c => c == Chan.mk 1)).1).admins
          ∧ ∀ ev3, Eff.sendAdmin (Chan.mk 1) ev3 ∉
              ((((WSManager.mk [] [Chan.mk 1, Chan.mk 2] 250 5).broadcast_admin []
                  (fun c => c == Chan.mk 1)).1).broadcast_admin []
                (fun _ => false)).2)) :=
  ⟨by decide,
   broadcast_admin_evicts_failed_channel
     (WSManager.mk [] [Chan.mk 1, Chan.mk 2] 250 5) [] []
     (fun c => c == Chan.mk 1) (fun _ => false) (Chan.mk 1) (by decide)⟩

/-! ### C5 — delete: deletion notice reaches the visitor before the unbind -/

/-- C5: in the operator-initiated delete of an existing conversation with a
still-bound visitor channel, the emitted action trace is the database delete,
then the `conversation_deleted` send to the bound visitor channel, then the
sends to the operator channels, and only then the removal of the visitor
binding — the unbind never precedes the broadcast; afterwards the conversation
is unbound. -/
theorem delete_broadcast_precedes_unbind
    (m : WSManager) (db : ChatDB) (conv : Nat) (ws : Chan)
    (visitorDrops : Bool) (adminFails : Chan → Bool)
    (hconv : db.convs.contains conv = true)
    (hws : dictGet m.clients conv = some ws) :
    (∃ mid,
      (handle_admin_delete m db conv visitorDrops adminFails).2.2 =
        Eff.dbDelete conv :: Eff.sendVisitor ws (deletedEvent conv) ::
          (mid ++ [Eff.unbind conv])
      ∧ ∀ e ∈ mid, ∃ a, e = Eff.sendAdmin a (deletedEvent conv))
    ∧ dictGet ((handle_admin_delete m db conv visitorDrops adminFails).1).clients
        conv = none := by
  have hdel : handle_admin_delete m db conv visitorDrops adminFails
      = ((m.broadcast_to_conversation conv (deletedEvent conv) visitorDrops
           adminFails).1.unregister_client conv,
         ChatDB.mk (db.convs.filter (fun c => !(c == conv))),
         Eff.dbDelete conv ::
           ((m.broadcast_to_conversation conv (deletedEvent conv) visitorDrops
              adminFails).2 ++ [Eff.unbind conv])) := by
    unfold handle_admin_delete
    rw [if_pos hconv]
    rfl
  have hbr : m.broadcast_to_conversation conv (deletedEvent conv) visitorDrops
        adminFails
      = (((if visitorDrops then { m with clients := dictPop m.clients conv }
            else m).broadcast_admin (deletedEvent conv) adminFails).1,
         Eff.sendVisitor ws (deletedEvent conv) ::
           ((if visitorDrops then { m with clients := dictPop m.clients conv }
              else m).broadcast_admin (deletedEvent conv) adminFails).2) := by
    unfold WSManager.broadcast_to_conversation
    rw [hws]
  constructor
  · refine ⟨((if visitorDrops then { m with clients := dictPop m.clients conv }
        else m).broadcast_admin (deletedEvent conv) adminFails).2, ?_, ?_⟩
    · rw [hdel, hbr]
      simp [List.cons_append]
    · intro e he
      unfold WSManager.broadcast_admin at he
      simp only [List.mem_map] at he
      obtain ⟨a, _, hae⟩ := he
      exact ⟨a, hae.symm⟩
  · rw [hdel]
    unfold WSManager.unregister_client
    exact dictGet_dictPop_self _ conv

/-- C5 (witness): deleting conversation 1 while its visitor channel 10 is
bound and operator channel 2 is registered broadcasts the deletion notice to
the visitor before the unbind. -/
theorem delete_broadcast_precedes_unbind_witness :
    (ChatDB.mk [1, 3]).convs.contains 1 = true
    ∧ dictGet (WSManager.mk [(1, Chan.mk 10)] [Chan.mk 2] 250 5).clients 1
        = some (Chan.mk 10)
    ∧ ((∃ mid,
        (handle_admin_delete (WSManager.mk [(1, Chan.mk 10)] [Chan.mk 2] 250 5)
          (ChatDB.mk [1, 3]) 1 false (fun _ => false)).2.2 =
          Eff.dbDelete 1 :: Eff.sendVisitor (Chan.mk 10) (deletedEvent 1) ::
            (mid ++ [Eff.unbind 1])
        ∧ ∀ e ∈ mid, ∃ a, e = Eff.sendAdmin a (deletedEvent 1))
      ∧ dictGet ((handle_admin_delete
            (WSManager.mk [(1, Chan.mk 10)] [Chan.mk 2] 250 5)
            (ChatDB.mk [1, 3]) 1 false (fun _ => false)).1).clients 1 = none) :=
  ⟨by decide, by decide,
   delete_broadcast_precedes_unbind
     (WSManager.mk [(1, Chan.mk 10)] [Chan.mk 2] 250 5) (ChatDB.mk [1, 3]) 1
     (Chan.mk 10) false (fun _ => false) (by decide) (by decide)⟩

/-! ### C3 — one-time codes verify successfully at most once -/

/-- C3: once `verify_otp_and_issue_session` has succeeded for a code — marking
the matched OTP row used and issuing a session — every later verification
attempt with the same code fails: it is rejected as invalid (or rate-limited
when the limiter quota is exhausted), even at a time when the code would not
yet have expired. -/
theorem otp_single_use
    (hash : String → String) (db db1 : AuthDB) (code : String)
    (now1 now2 : Nat) (rateOk2 : Bool) (tok1 tok2 : String)
    (sid1 sid2 ttl1 ttl2 : Nat) (ip1 ip2 : String) (ua1 ua2 : Option String)
    (tok : String) (expiry : Nat)
    (hsucc : verify_otp_and_issue_session hash db code now1 true tok1 sid1 ttl1
        ip1 ua1 = .ok (db1, tok, expiry))
    (hmono : now1 ≤ now2) :
    verify_otp_and_issue_session hash db1 code now2 rateOk2 tok2 sid2 ttl2 ip2
        ua2
      = .error (if rateOk2 then AuthErr.invalidCode else AuthErr.rateLimited) := by
  unfold verify_otp_and_issue_session at hsucc ⊢
  simp only [Bool.not_true, Bool.false_eq_true, if_false] at hsucc
  cases hrows : db.otps.filter
      (fun o => o.code_hash == hash code && !o.used
        && decide (now1 < o.expires_at)) with
  | nil =>
    rw [hrows] at hsucc
    simp [scalarOneOrNone] at hsucc
  | cons otp rest =>
    cases rest with
    | cons b t =>
      rw [hrows] at hsucc
      simp [scalarOneOrNone] at hsucc
    | nil =>
      rw [hrows] at hsucc
      simp only [scalarOneOrNone, Except.ok.injEq, Prod.mk.injEq] at hsucc
      obtain ⟨hdb, -, -⟩ := hsucc
      have hotps : db1.otps = db.otps.map
          (fun o => if o.id == otp.id then { o with used := true } else o) :=
        (congrArg AuthDB.otps hdb).symm
      cases rateOk2 with
      | false => simp
      | true =>
        simp only [Bool.not_true, Bool.false_eq_true, if_false, if_true]
        have hnil : db1.otps.filter
            (fun o => o.code_hash == hash code && !o.used
              && decide (now2 < o.expires_at)) = [] := by
          rw [List.filter_eq_nil_iff]
          intro o1 ho1
          rw [hotps] at ho1
          obtain ⟨o, ho, rfl⟩ := List.mem_map.mp ho1
          by_cases hid : (o.id == otp.id) = true
          · simp [hid]
          · simp only [hid, if_false]
            intro hp
            simp only [Bool.and_eq_true, beq_iff_eq, Bool.not_eq_true',
              decide_eq_true_eq] at hp
            obtain ⟨⟨hh, hu⟩, he⟩ := hp
            have hp1 : (fun o => o.code_hash == hash code && !o.used
                && decide (now1 < o.expires_at)) o = true := by
              simp only [Bool.and_eq_true, beq_iff_eq, Bool.not_eq_true',
                decide_eq_true_eq]
              exact ⟨⟨hh, hu⟩, lt_of_le_of_lt hmono he⟩
            have : o ∈ db.otps.filter
                (fun o => o.code_hash == hash code && !o.used
                  && decide (now1 < o.expires_at)) :=
              List.mem_filter.mpr ⟨ho, hp1⟩
            rw [hrows] at this
            simp only [List.mem_singleton] at this
            rw [this] at hid
            simp at hid
        rw [hnil]
        simp [scalarOneOrNone]

/-- C3 (witness): a database holding one unused OTP row verifies once
successfully; the immediate retry with the same code is rejected as
invalid. -/
theorem otp_single_use_witness :
    verify_otp_and_issue_session (fun s => s) (AuthDB.mk [AdminOTP.mk 1 "c" 100 false] [])
        "c" 0 true "t" 7 1 "ip" none
      = .ok (AuthDB.mk [AdminOTP.mk 1 "c" 100 true]
          [AdminSession.mk 7 "t" 3600 true (some "ip") none], "t", 3600)
    ∧ verify_otp_and_issue_session (fun s => s)
        (AuthDB.mk [AdminOTP.mk 1 "c" 100 true]
          [AdminSession.mk 7 "t" 3600 true (some "ip") none])
        "c" 5 true "t2" 8 1 "ip" none
      = .error (if true then AuthErr.invalidCode else AuthErr.rateLimited) :=
  ⟨rfl,
   otp_single_use (fun s => s) (AuthDB.mk [AdminOTP.mk 1 "c" 100 false] [])
     (AuthDB.mk [AdminOTP.mk 1 "c" 100 true]
       [AdminSession.mk 7 "t" 3600 true (some "ip") none])
     "c" 0 5 true "t" "t2" 7 8 1 1 "ip" "ip" none none "t" 3600 rfl
     (by decide)⟩

/-! ### C4 — token rotation invalidates the old session token -/

theorem mem_of_backfill (rows : List AdminSession) (sid : Nat)
    (f : AdminSession → AdminSession)
    (hf : ∀ s, (f s).token = s.token ∧ (f s).id = s.id) (c : Bool) :
    ∀ r ∈ (if c then updateSessions rows sid f else rows),
      ∃ s ∈ rows, r.token = s.token ∧ r.id = s.id := by
  intro r hr
  cases c with
  | false => exact ⟨r, by simpa using hr, rfl, rfl⟩
  | true =>
    simp only [if_true] at hr
    unfold updateSessions at hr
    obtain ⟨s, hs, rfl⟩ := List.mem_map.mp hr
    by_cases hid : (s.id == sid) = true
    · simp only [hid, if_true]
      exact ⟨s, hs, (hf s).1, (hf s).2⟩
    · simp only [hid, if_false]
      exact ⟨s, hs, rfl, rfl⟩

theorem backfill_keeps_id (rows : List AdminSession) (sid : Nat)
    (f : AdminSession → AdminSession)
    (hf : ∀ s, (f s).id = s.id) (c : Bool) (s : AdminSession) (hs : s ∈ rows)
    (hid : s.id = sid) :
    ∃ r ∈ (if c then updateSessions rows sid f else rows), r.id = sid := by
  cases c with
  | false => exact ⟨s, by simpa using hs, hid⟩
  | true =>
    refine ⟨if s.id == sid then f s else s, ?_, ?_⟩
    · simp only [if_true]
      exact List.mem_map.mpr ⟨s, hs, rfl⟩
    · by_cases h : (s.id == sid) = true
      · simp only [h, if_true]
        rw [hf s, hid]
      · simp only [h, if_false]
        exact hid

/-- C4: with refresh-on-activity enabled (and no admin IP allow-list
configured, the default), a successful `get_current_admin` returns the freshly
generated token with `rotated=True`, stores that token on the session row with
the extended expiry in the same update, and — provided the generated token
differs from the presented one and session tokens are unique, as the schema's
UNIQUE constraint guarantees — any later `get_current_admin` call presenting
the pre-rotation bearer token is rejected as unauthorized. -/
theorem session_rotation_invalidates_old_token
    (cfg : Settings) (db db1 : AuthDB) (auth : String) (now : Nat)
    (ip : Option String) (ua : String) (fresh : String) (info : AdminInfo)
    (hrefresh : cfg.SESSION_REFRESH_ENABLED = true)
    (hwl : cfg.ADMIN_IP_WHITELIST = [])
    (hnodup : (db.sessions.map (·.token)).Nodup)
    (hok : get_current_admin cfg db (some auth) now ip ua fresh
        = .ok (db1, info)) :
    info.token = fresh ∧ info.rotated = true
    ∧ (∃ s ∈ db1.sessions, s.id = info.session_id ∧ s.token = fresh
        ∧ s.expires_at = now + cfg.ADMIN_SESSION_TTL_HOURS * 3600)
    ∧ (fresh ≠ auth.drop 7 →
        ∀ (now2 : Nat) (ip2 : Option String) (ua2 : String) (fresh2 : String),
          get_current_admin cfg db1 (some auth) now2 ip2 ua2 fresh2
            = .error AuthErr.unauthorized) := by
  unfold get_current_admin at hok
  by_cases hbear : strStartsWith auth "Bearer " = true
  case neg =>
    simp [hbear] at hok
  case pos =>
  simp only [hbear, Bool.not_true, Bool.false_eq_true, if_false, hwl, hrefresh,
    ne_eq, not_true_eq_false, decide_False, Bool.false_and, if_true] at hok
  cases hrows : db.sessions.filter
      (fun s => s.token == auth.drop 7 && s.active
        && decide (now < s.expires_at)) with
  | nil =>
    rw [hrows] at hok
    simp [scalarOneOrNone] at hok
  | cons ses rest =>
    cases rest with
    | cons b t =>
      rw [hrows] at hok
      simp [scalarOneOrNone] at hok
    | nil =>
      rw [hrows] at hok
      simp only [scalarOneOrNone, Except.ok.injEq, Prod.mk.injEq] at hok
      obtain ⟨hdb, hinfo⟩ := hok
      have hses_filter : ses ∈ db.sessions.filter
          (fun s => s.token == auth.drop 7 && s.active
            && decide (now < s.expires_at)) := by
        rw [hrows]; exact List.mem_singleton_self ses
      have hses_mem : ses ∈ db.sessions := List.mem_of_mem_filter hses_filter
      have hses_pred := List.of_mem_filter hses_filter
      have hses_tok : ses.token = auth.drop 7 := by
        simp only [Bool.and_eq_true, beq_iff_eq] at hses_pred
        exact hses_pred.1.1
      have hsess1 : db1.sessions = updateSessions
          (if optFalsy ses.user_agent && ua != "" then
            updateSessions
              (if optFalsy ses.client_ip && ip.isSome then
                updateSessions db.sessions ses.id
                  (fun s => { s with client_ip := ip })
              else db.sessions) ses.id
              (fun s => { s with user_agent := some ua })
          else
            (if optFalsy ses.client_ip && ip.isSome then
              updateSessions db.sessions ses.id
                (fun s => { s with client_ip := ip })
            else db.sessions)) ses.id
          (fun s => { s with token := fresh, expires_at := now + cfg.ADMIN_SESSION_TTL_HOURS * 3600 }) :=
        (congrArg AuthDB.sessions hdb).symm
      have hinfo_tok : info.token = fresh := (congrArg AdminInfo.token hinfo).symm
      have hinfo_rot : info.rotated = true := (congrArg AdminInfo.rotated hinfo).symm
      have hinfo_sid : info.session_id = ses.id :=
        (congrArg AdminInfo.session_id hinfo).symm
      -- every row of the intermediate (back-filled) table keeps its token and id
      have hmid : ∀ r ∈ (if optFalsy ses.user_agent && ua != "" then
            updateSessions
              (if optFalsy ses.client_ip && ip.isSome then
                updateSessions db.sessions ses.id
                  (fun s => { s with client_ip := ip })
              else db.sessions) ses.id
              (fun s => { s with user_agent := some ua })
          else
            (if optFalsy ses.client_ip && ip.isSome then
              updateSessions db.sessions ses.id
                (fun s => { s with client_ip := ip })
            else db.sessions)),
          ∃ s ∈ db.sessions, r.token = s.token ∧ r.id = s.id := by
        intro r hr
        obtain ⟨r1, hr1, hrtok, hrid⟩ :=
          mem_of_backfill _ ses.id (fun s => { s with user_agent := some ua })
            (fun s => ⟨rfl, rfl⟩) _ r hr
        obtain ⟨s, hs, h1tok, h1id⟩ :=
          mem_of_backfill _ ses.id (fun s => { s with client_ip := ip })
            (fun s => ⟨rfl, rfl⟩) _ r1 hr1
        exact ⟨s, hs, hrtok.trans h1tok, hrid.trans h1id⟩
      refine ⟨hinfo_tok, hinfo_rot, ?_, ?_⟩
      · -- the rotated row is stored with the new token and extended expiry
        have hses_id : ∃ r2 ∈ (if optFalsy ses.user_agent && ua != "" then
              updateSessions
                (if optFalsy ses.client_ip && ip.isSome then
                  updateSessions db.sessions ses.id
                    (fun s => { s with client_ip := ip })
                else db.sessions) ses.id
                (fun s => { s with user_agent := some ua })
            else
              (if optFalsy ses.client_ip && ip.isSome then
                updateSessions db.sessions ses.id
                  (fun s => { s with client_ip := ip })
              else db.sessions)), r2.id = ses.id := by
          obtain ⟨r1, hr1, hr1id⟩ := backfill_keeps_id db.sessions ses.id
            (fun s => { s with client_ip := ip }) (fun s => rfl) _ ses hses_mem
            rfl
          exact backfill_keeps_id _ ses.id
            (fun s => { s with user_agent := some ua }) (fun s => rfl) _ r1 hr1
            hr1id
        obtain ⟨r2, hr2, hr2id⟩ := hses_id
        refine ⟨{ r2 with token := fresh, expires_at := now + cfg.ADMIN_SESSION_TTL_HOURS * 3600 }, ?_, ?_, rfl, rfl⟩
        · rw [hsess1]
          unfold updateSessions
          refine List.mem_map.mpr ⟨r2, hr2, ?_⟩
          rw [if_pos (by simp [hr2id])]
        · simp [hinfo_sid, hr2id]
      · -- no row of the rotated table carries the old token any more
        intro hfr now2 ip2 ua2 fresh2
        have hall : ∀ r ∈ db1.sessions, (r.token == auth.drop 7) = false := by
          intro r hr
          rw [hsess1] at hr
          unfold updateSessions at hr
          obtain ⟨r2, hr2, rfl⟩ := List.mem_map.mp hr
          by_cases hid : (r2.id == ses.id) = true
          · simp only [hid, if_true]
            simp only [beq_eq_false_iff_ne, ne_eq]
            exact hfr
          · have hid2 : (r2.id == ses.id) = false := by simpa using hid
            rw [hid2, if_neg (by simp)]
            obtain ⟨s, hs, hstok, hsid⟩ := hmid r2 hr2
            simp only [beq_eq_false_iff_ne, ne_eq]
            intro htok
            have hseq : s = ses := by
              apply List.inj_on_of_nodup_map hnodup hs hses_mem
              show s.token = ses.token
              rw [← hstok, htok, hses_tok]
            apply hid
            rw [hsid, hseq]
            exact beq_self_eq_true ses.id
        have hnil : db1.sessions.filter
            (fun s => s.token == auth.drop 7 && s.active
              && decide (now2 < s.expires_at)) = [] := by
          rw [List.filter_eq_nil_iff]
          intro r hr
          simp [hall r hr]
        unfold get_current_admin
        simp only [hbear, Bool.not_true, Bool.false_eq_true, if_false, hwl,
          ne_eq, not_true_eq_false, decide_False, Bool.false_and, if_true,
          hnil, scalarOneOrNone]

/-- C4 (witness): one session with token `"tok"`; authenticating under the
default configuration rotates it to `"newtok"` with extended expiry, after
which the old bearer token is rejected at any later time. -/
theorem session_rotation_invalidates_old_token_witness :
    get_current_admin defaultSettings
        (AuthDB.mk [] [AdminSession.mk 1 "tok" 100 true none none])
        (some "Bearer tok") 0 none "" "newtok"
      = .ok (AuthDB.mk [] [AdminSession.mk 1 "newtok" 86400 true none none],
             AdminInfo.mk "newtok" 1 true)
    ∧ ("newtok" ≠ ("Bearer tok").drop 7 →
        ∀ (now2 : Nat) (ip2 : Option String) (ua2 : String) (fresh2 : String),
          get_current_admin defaultSettings
            (AuthDB.mk [] [AdminSession.mk 1 "newtok" 86400 true none none])
            (some "Bearer tok") now2 ip2 ua2 fresh2
          = .error AuthErr.unauthorized) :=
  ⟨rfl,
   (session_rotation_invalidates_old_token defaultSettings
      (AuthDB.mk [] [AdminSession.mk 1 "tok" 100 true none none])
      (AuthDB.mk [] [AdminSession.mk 1 "newtok" 86400 true none none])
      "Bearer tok" 0 none "" "newtok" (AdminInfo.mk "newtok" 1 true)
      rfl rfl (by decide) rfl).2.2.2⟩

/-! ### C7 — bridge notifications thread off the latest link -/

theorem foldl_laterLink_mem (l : List TelegramLink) :
    ∀ (acc : Option TelegramLink) (b : TelegramLink),
      l.foldl laterLink acc = some b → acc = some b ∨ b ∈ l := by
  induction l with
  | nil =>
    intro acc b h
    exact Or.inl h
  | cons x xs ih =>
    intro acc b h
    rw [List.foldl_cons] at h
    rcases ih (laterLink acc x) b h with hacc | hmem
    · cases acc with
      | none =>
        simp only [laterLink] at hacc
        injection hacc with hacc
        exact Or.inr (by rw [← hacc]; exact List.mem_cons_self x xs)
      | some best =>
        simp only [laterLink] at hacc
        by_cases hlt : best.created_at < x.created_at
        · rw [if_pos hlt] at hacc
          injection hacc with hacc
          exact Or.inr (by rw [← hacc]; exact List.mem_cons_self x xs)
        · rw [if_neg hlt] at hacc
          exact Or.inl hacc
    · exact Or.inr (List.mem_cons_of_mem x hmem)

theorem latestLink_mem (links : List TelegramLink) (conv : Nat)
    (b : TelegramLink) (h : latestLink links conv = some b) :
    b ∈ links ∧ b.conversation_id = conv := by
  unfold latestLink at h
  rcases foldl_laterLink_mem _ none b h with hacc | hmem
  · exact absurd hacc (by simp)
  · have hm := List.mem_filter.mp hmem
    exact ⟨hm.1, by simpa using hm.2⟩

theorem latestLink_append_fresh (links : List TelegramLink) (conv : Nat)
    (nl : TelegramLink) (hconv : nl.conversation_id = conv)
    (hfresh : ∀ l ∈ links, l.created_at < nl.created_at) :
    latestLink (links ++ [nl]) conv = some nl := by
  unfold latestLink
  rw [List.filter_append, List.foldl_append]
  have hnl : (nl.conversation_id == conv) = true := by simp [hconv]
  simp only [List.filter_cons, hnl, if_true, List.filter_nil]
  rw [List.foldl_cons, List.foldl_nil]
  cases hlt : (links.filter (fun l => l.conversation_id == conv)).foldl
      laterLink none with
  | none => rfl
  | some best =>
    simp only [laterLink]
    rcases foldl_laterLink_mem _ none best hlt with h | hmem
    · simp at h
    · have hb := (List.mem_filter.mp hmem).1
      rw [if_pos (hfresh best hb)]

/-- C7: `notify_visitor_message` sends its Telegram payload as a reply to the
message id of the most recently recorded thread link of the conversation (no
reply target when no link exists yet); on success the returned external
message id is appended as a new link, which then is the latest link of the
conversation — so consecutive notifications chain off the newest link.
(Hypotheses: recorded Telegram message ids are nonzero — they are ids returned
by the Telegram API, and a zero id would be dropped by `tg_send`'s truthiness
test — and the clock is strictly increasing.) -/
theorem telegram_reply_threads_off_latest_link
    (links : List TelegramLink) (conv : Nat) (chatId : Int) (text : String)
    (msgId : Int) (now : Nat)
    (hpos : ∀ l ∈ links, l.tg_message_id ≠ 0)
    (hfresh : ∀ l ∈ links, l.created_at < now) :
    (∀ sendResult,
        ((notify_visitor_message links conv chatId text sendResult
            now).2).reply_to_message_id
          = (latestLink links conv).map (·.tg_message_id))
    ∧ (notify_visitor_message links conv chatId text (some msgId) now).1
        = links ++ [TelegramLink.mk conv chatId msgId now]
    ∧ latestLink ((notify_visitor_message links conv chatId text (some msgId)
          now).1) conv
        = some (TelegramLink.mk conv chatId msgId now) := by
  have hreq : ∀ sendResult,
      ((notify_visitor_message links conv chatId text sendResult
          now).2).reply_to_message_id
        = (latestLink links conv).map (·.tg_message_id) := by
    intro sendResult
    unfold notify_visitor_message
    cases hlat : latestLink links conv with
    | none => cases sendResult <;> simp [hlat, tg_payload]
    | some best =>
      have hb0 : best.tg_message_id ≠ 0 :=
        hpos best (latestLink_mem links conv best hlat).1
      cases sendResult <;> simp [hlat, tg_payload, hb0]
  have happ : (notify_visitor_message links conv chatId text (some msgId)
      now).1 = links ++ [TelegramLink.mk conv chatId msgId now] := by
    unfold notify_visitor_message
    rfl
  refine ⟨hreq, happ, ?_⟩
  rw [happ]
  exact latestLink_append_fresh links conv _ rfl hfresh

/-- C7 (witness): with one existing link (message id 100), the next
notification replies to 100, and after it succeeds with id 200 the latest link
is the new one. -/
theorem telegram_reply_threads_off_latest_link_witness :
    (∀ l ∈ [TelegramLink.mk 1 5 100 0], l.tg_message_id ≠ 0)
    ∧ (∀ l ∈ [TelegramLink.mk 1 5 100 0], l.created_at < 3)
    ∧ ((∀ sendResult,
        ((notify_visitor_message [TelegramLink.mk 1 5 100 0] 1 5 "hi" sendResult
            3).2).reply_to_message_id
          = (latestLink [TelegramLink.mk 1 5 100 0] 1).map (·.tg_message_id))
      ∧ (notify_visitor_message [TelegramLink.mk 1 5 100 0] 1 5 "hi" (some 200)
          3).1 = [TelegramLink.mk 1 5 100 0] ++ [TelegramLink.mk 1 5 200 3]
      ∧ latestLink ((notify_visitor_message [TelegramLink.mk 1 5 100 0] 1 5 "hi"
          (some 200) 3).1) 1 = some (TelegramLink.mk 1 5 200 3)) :=
  ⟨by decide, by decide,
   telegram_reply_threads_off_latest_link [TelegramLink.mk 1 5 100 0] 1 5 "hi"
     200 3 (by decide) (by decide)⟩

/-! ### C9 — oversized payload handling in `WSManager.send` -/

set_option maxRecDepth 40000 in
/-- C9 (counterexample): an event whose serialized form exceeds the configured
byte ceiling but whose `type` is not `"message"` is passed through
`WSManager.send` unchanged — its textual content field is not truncated, no
marker is appended, and the delivered payload is the same oversized object, so
it does not remain within the limit. -/
theorem wsSend_oversized_not_always_truncated :
    ({ defaultSettings with MAX_WS_MESSAGE_SIZE := 64 } :
        Settings).MAX_WS_MESSAGE_SIZE
      < utf8Len (dumpsObj [("type", JVal.str "history"),
          ("content", JVal.str (String.mk (List.replicate 100 'a')))])
    ∧ wsSend { defaultSettings with MAX_WS_MESSAGE_SIZE := 64 }
        [("type", JVal.str "history"),
         ("content", JVal.str (String.mk (List.replicate 100 'a')))]
      = Except.ok [("type", JVal.str "history"),
          ("content", JVal.str (String.mk (List.replicate 100 'a')))] := by
  constructor
  · decide
  · rfl

/-- C9 (amended): when the serialized event exceeds `MAX_WS_MESSAGE_SIZE`
bytes, only an event of type `"message"` carrying a string `content` field is
modified: if the content's UTF-8 length exceeds `MAX_WS_MESSAGE_SIZE - 200`,
the content is cut to its first `(MAX_WS_MESSAGE_SIZE - 200) // 4` characters
(Python slice semantics) with the marker `"... (truncated)"` appended, and the
event is delivered rather than dropped; every other oversized event is
delivered unchanged, so the delivered payload is not guaranteed to be within
the limit. -/
theorem wsSend_truncation_policy
    (cfg : Settings) (data : JObj) (content : String)
    (hover : cfg.MAX_WS_MESSAGE_SIZE < utf8Len (dumpsObj data)) :
    (dictGet data "type" = some (JVal.str "message") →
      dictGet data "content" = some (JVal.str content) →
      ((cfg.MAX_WS_MESSAGE_SIZE : Int) - 200 < (utf8Len content : Int) →
        wsSend cfg data = .ok (dictSet data "content"
          (JVal.str (pySlice content
              (Int.fdiv ((cfg.MAX_WS_MESSAGE_SIZE : Int) - 200) 4)
            ++ "... (truncated)"))))
      ∧ ((utf8Len content : Int) ≤ (cfg.MAX_WS_MESSAGE_SIZE : Int) - 200 →
        wsSend cfg data = .ok data))
    ∧ (dictGet data "type" ≠ some (JVal.str "message") →
        wsSend cfg data = .ok data) := by
  constructor
  · intro htype hcont
    constructor
    · intro hlen
      simp only [wsSend, htype, hcont]
      rw [if_pos hover]
      simp only [beq_self_eq_true, Option.isSome_some, Bool.and_self, if_true]
      rw [if_pos hlen]
    · intro hlen
      simp only [wsSend, htype, hcont]
      rw [if_pos hover]
      simp only [beq_self_eq_true, Option.isSome_some, Bool.and_self, if_true]
      rw [if_neg (not_lt.mpr hlen)]
  · intro htype
    have hb : (dictGet data "type" == some (JVal.str "message")) = false := by
      simp [htype]
    simp only [wsSend, hb, Bool.false_and, Bool.false_eq_true, if_false]
    rw [if_pos hover]

set_option maxRecDepth 40000 in
/-- C9 (witness): under a 220-byte ceiling, an oversized `"message"` event with
a 250-character content is delivered with the content truncated to
`(220-200)//4 = 5` characters plus the marker. -/
theorem wsSend_truncation_policy_witness :
    ({ defaultSettings with MAX_WS_MESSAGE_SIZE := 220 } :
        Settings).MAX_WS_MESSAGE_SIZE
      < utf8Len (dumpsObj [("type", JVal.str "message"),
          ("content", JVal.str (String.mk (List.replicate 250 'a')))])
    ∧ wsSend { defaultSettings with MAX_WS_MESSAGE_SIZE := 220 }
        [("type", JVal.str "message"),
         ("content", JVal.str (String.mk (List.replicate 250 'a')))]
      = Except.ok [("type", JVal.str "message"),
          ("content", JVal.str "aaaaa... (truncated)")] :=
  ⟨by decide,
   ((wsSend_truncation_policy
       { defaultSettings with MAX_WS_MESSAGE_SIZE := 220 }
       [("type", JVal.str "message"),
        ("content", JVal.str (String.mk (List.replicate 250 'a')))]
       (String.mk (List.replicate 250 'a')) (by decide)).1 rfl rfl).1 (by decide)⟩
